import Mathlib

/-!
Verification development for the `cinder.objects.backup` module: a
versioned, change-tracked persistent object model for backup-metadata
records (`Backup`), together with its portable token codec
(`encode_record` / `decode_record`), version-compatibility downgrader
(`obj_make_compatible`) and persistence façade (`create` / `save` /
`_from_db_object`).

The embedding is shallow: Python dicts become association lists, the
object's field store becomes a map from the declared-field enumeration to
optional primitive values, fallible operations return `Except`/`Option`,
and the external serialization libraries (JSON text + padded base64) are
modelled as executable Lean functions satisfying the documented token
format `base64(padded)(structured_text(map))`.
-/

namespace CinderBackup

/-- A primitive value as stored in rows, wire maps and tokens:
string / integer / boolean / null (the value kinds of the token format). -/
inductive Val where
  | vstr (s : String)
  | vint (n : Int)
  | vbool (b : Bool)
  | vnull
  deriving DecidableEq, Repr

/-- Python truthiness on primitive values (`bool(x)`): empty string,
zero, `False` and `None` are falsy, everything else truthy. -/
def pyTruthy : Val → Bool
  | Val.vstr s => s ≠ ""
  | Val.vint n => n ≠ 0
  | Val.vbool b => b
  | Val.vnull => false

/-- The declared fields of `Backup.fields`, in source declaration order. -/
inductive BField where
  | id | user_id | project_id | volume_id | host | availability_zone
  | container | parent_id | status | fail_reason | size
  | display_name | display_description | service_metadata | service
  | object_count | temp_volume_id | temp_snapshot_id | num_dependent_backups
  deriving DecidableEq, Repr

/-- Wire/storage name of each declared field. -/
def fieldName : BField → String
  | BField.id => "id"
  | BField.user_id => "user_id"
  | BField.project_id => "project_id"
  | BField.volume_id => "volume_id"
  | BField.host => "host"
  | BField.availability_zone => "availability_zone"
  | BField.container => "container"
  | BField.parent_id => "parent_id"
  | BField.status => "status"
  | BField.fail_reason => "fail_reason"
  | BField.size => "size"
  | BField.display_name => "display_name"
  | BField.display_description => "display_description"
  | BField.service_metadata => "service_metadata"
  | BField.service => "service"
  | BField.object_count => "object_count"
  | BField.temp_volume_id => "temp_volume_id"
  | BField.temp_snapshot_id => "temp_snapshot_id"
  | BField.num_dependent_backups => "num_dependent_backups"

/-- `isinstance(field, fields.IntegerField)` for the declared schema:
`size`, `object_count` and `num_dependent_backups` are the integer fields. -/
def isIntegerField : BField → Bool
  | BField.size => true
  | BField.object_count => true
  | BField.num_dependent_backups => true
  | _ => false

/-- All declared fields, in `Backup.fields` declaration order. -/
def allFields : List BField :=
  [BField.id, BField.user_id, BField.project_id, BField.volume_id,
   BField.host, BField.availability_zone, BField.container,
   BField.parent_id, BField.status, BField.fail_reason, BField.size,
   BField.display_name, BField.display_description,
   BField.service_metadata, BField.service, BField.object_count,
   BField.temp_volume_id, BField.temp_snapshot_id,
   BField.num_dependent_backups]

/-- The in-memory `Backup` object: each declared field is either unset
(`none`) or set to a primitive value, and each field carries a dirty
flag (the change-set of the versioned-object machinery). -/
structure Backup where
  vals : BField → Option Val
  changed : BField → Bool

/-- Modelled from the spec: `set(field, value)` of the Change-Tracked
Record (`obj[name] = value` through the dict-compat base class, which is
not under `src/`) assigns the declared field and marks it dirty even if
the value is unchanged. -/
def objSet (b : Backup) (f : BField) (v : Val) : Backup :=
  { vals := fun g => if g = f then some v else b.vals g,
    changed := fun g => if g = f then true else b.changed g }

/-- Modelled from the spec: `reset_changes()` clears the dirty set
without altering values (`obj_reset_changes` of the base class, not
under `src/`). -/
def objResetChanges (b : Backup) : Backup :=
  { b with changed := fun _ => false }

/-- Modelled from the spec: `is_set(field)` is true iff the field has
ever been assigned (`obj_attr_is_set` of the base class, not under
`src/`). -/
def objAttrIsSet (b : Backup) (f : BField) : Bool :=
  (b.vals f).isSome

/-- Modelled from the spec: `changes()` returns the mapping of dirty
field name to current value (`cinder_obj_get_changes` of the base class,
not under `src/`; `Backup` has no dict-valued metadata field, so the
base class's metadata special-casing is the identity here). -/
def getChanges (b : Backup) : List (BField × Val) :=
  allFields.filterMap fun f =>
    if b.changed f then (b.vals f).map fun v => (f, v) else none

/-- A storage row, as handed to `_from_db_object`: `row f` is `none`
when the column is missing or NULL (Python `db_backup.get(name)` returns
`None` in both cases), otherwise the stored primitive. -/
def DbRow : Type := BField → Option Val

/-- The value `_from_db_object` assigns to field `f` given the row's
value: a missing/NULL integer field loads as `0`; every other
missing/NULL field loads as null; present values load as-is. -/
def loadVal (f : BField) : Option Val → Val
  | some v => v
  | none => if isIntegerField f then Val.vint 0 else Val.vnull

/-- `Backup._from_db_object`: populate every declared field from the row
(zero-defaulting NULL integers), then reset the change-set. -/
def fromDbObject (row : DbRow) : Backup :=
  { vals := fun f => some (loadVal f (row f)),
    changed := fun _ => false }

/-- `Backup.is_incremental`: `bool(self.parent_id)`; `none` models the
attribute-not-set error of reading an unset field. -/
def isIncremental (b : Backup) : Option Bool :=
  (b.vals BField.parent_id).map pyTruthy

/-- `Backup.has_dependent_backups`: `bool(self.num_dependent_backups)`. -/
def hasDependentBackups (b : Backup) : Option Bool :=
  (b.vals BField.num_dependent_backups).map pyTruthy

/-- `exception.ObjectActionError(action=..., reason=...)`. -/
structure ObjectActionError where
  action : String
  reason : String
  deriving DecidableEq, Repr

/-- `exception.InvalidInput(reason=...)`. -/
structure InvalidInput where
  reason : String
  deriving DecidableEq, Repr

/-- `Backup.create`: raises `ObjectActionError("create", "already
created")` if `id` is already set; otherwise sends the change-set to the
storage collaborator's insert (`db.backup_create`, passed in as
`dbCreate` since the database is an external collaborator) and
repopulates the object from the returned row. -/
def create (dbCreate : List (BField × Val) → DbRow) (b : Backup) :
    Except ObjectActionError Backup :=
  if objAttrIsSet b BField.id then
    Except.error { action := "create", reason := "already created" }
  else
    Except.ok (fromDbObject (dbCreate (getChanges b)))

/-- `Backup.save`: computes the change-set; if non-empty, issues the
collaborator's update keyed by `id` with exactly that delta (returned
as the first component so the issued call is observable); then resets
the change-set unconditionally. -/
def save (b : Backup) :
    Option (Option Val × List (BField × Val)) × Backup :=
  let updates := getChanges b
  ((if updates = [] then none
    else some (b.vals BField.id, updates)),
   objResetChanges b)

/-- Modelled from the spec: `cinder.utils.convert_version_to_tuple`
(not under `src/`) parses a `"major.minor"` version string into a
numeric tuple, used to compare versions as (major, minor) pairs. -/
def convertVersionToTuple (v : String) : List Nat :=
  (v.splitOn ".").map fun t => t.toNat?.getD 0

/-- A wire representation (`primitive`): mapping from field name to
primitive value. -/
def WireMap : Type := List (String × Val)

/-- Python `d[k] = v` on an insertion-ordered dict: replace in place if
the key exists, else append. -/
def dictSet : List (String × Val) → String → Val → List (String × Val)
  | [], k, v => [(k, v)]
  | (k', v') :: rest, k, v =>
    if k' = k then (k, v) :: rest else (k', v') :: dictSet rest k v

/-- Python `d.update(other)`: assign each of `other`'s bindings into `d`
in iteration order. -/
def dictUpdate (d : List (String × Val)) (other : List (String × Val)) :
    List (String × Val) :=
  other.foldl (fun acc kv => dictSet acc kv.1 kv.2) d

/-- Python `d.get(k)` on an association list. -/
def dictLookup : List (String × Val) → String → Option Val
  | [], _ => none
  | (k', v') :: rest, k => if k' = k then some v' else dictLookup rest k

/-- `Backup.obj_make_compatible`: the inherited compatibility pass
affects only child-object fields, of which `Backup` declares none, so it
leaves the wire map unchanged; the override then converts the target
version to a tuple and returns without removing any field. -/
def objMakeCompatible (primitive : WireMap) (targetVersion : String) :
    WireMap :=
  let _ := convertVersionToTuple targetVersion
  primitive

/-- Modelled from the spec: iterating a record through the dict-compat
base class (not under `src/`) yields the declared fields that are set,
paired with their current values — the record's declared-field
snapshot (derived fields are never transmitted as schema fields). -/
def snapshot (b : Backup) : List (String × Val) :=
  allFields.filterMap fun f =>
    (b.vals f).map fun v => (fieldName f, v)

/-! ### Token codec

`encode_record`/`decode_record` delegate serialization to external
libraries (`jsonutils` and `base64`). Per the spec's token-format
contract the structured-text layer may be any deterministic,
self-describing format over string keys and string/int/bool/null values
that round-trips and rejects truncated or corrupt input; it is modelled
here as an executable length-prefixed byte format. The base64 layer is
the standard padded base64 alphabet. Bytes are `Nat`s below 256. -/

/-- A length prefix in unary: `n` one-bytes terminated by a zero-byte. -/
def unaryLen (n : Nat) : List Nat :=
  List.replicate n 1 ++ [0]

/-- A character as three bytes (big-endian over its code point). -/
def char3 (c : Char) : List Nat :=
  [c.toNat / 65536, c.toNat / 256 % 256, c.toNat % 256]

/-- A string: its character count, then three bytes per character. -/
def serializeStr (s : String) : List Nat :=
  unaryLen s.data.length ++ List.flatten (s.data.map char3)

/-- A value: a kind tag, then the kind-specific payload. -/
def serializeVal : Val → List Nat
  | Val.vnull => [0]
  | Val.vbool b => [1, if b then 1 else 0]
  | Val.vint n => 2 :: (if n < 0 then 1 else 0) :: unaryLen n.natAbs
  | Val.vstr s => 3 :: serializeStr s

/-- A key/value entry: the key string, then the value. -/
def serializeEntry (kv : String × Val) : List Nat :=
  serializeStr kv.1 ++ serializeVal kv.2

/-- A mapping: its entry count, then its entries in order. -/
def serializeMap (m : List (String × Val)) : List Nat :=
  unaryLen m.length ++ List.flatten (m.map serializeEntry)

/-- Read back a unary length prefix. -/
def parseUnary : List Nat → Option (Nat × List Nat)
  | 0 :: rest => some (0, rest)
  | 1 :: rest => (parseUnary rest).map fun p => (p.1 + 1, p.2)
  | _ => none

/-- Read back `n` three-byte characters. -/
def parseChars : Nat → List Nat → Option (List Char × List Nat)
  | 0, rest => some ([], rest)
  | n + 1, b0 :: b1 :: b2 :: rest =>
    (parseChars n rest).map fun p =>
      (Char.ofNat (b0 * 65536 + b1 * 256 + b2) :: p.1, p.2)
  | _ + 1, _ => none

/-- Read back a string. -/
def parseStr (bs : List Nat) : Option (String × List Nat) := do
  let (n, rest) ← parseUnary bs
  let (cs, rest') ← parseChars n rest
  pure (String.mk cs, rest')

/-- Read back a value. -/
def parseVal : List Nat → Option (Val × List Nat)
  | 0 :: rest => some (Val.vnull, rest)
  | 1 :: 0 :: rest => some (Val.vbool false, rest)
  | 1 :: 1 :: rest => some (Val.vbool true, rest)
  | 2 :: 0 :: rest =>
    (parseUnary rest).map fun p => (Val.vint (p.1 : Int), p.2)
  | 2 :: 1 :: rest =>
    (parseUnary rest).map fun p => (Val.vint (-(p.1 : Int)), p.2)
  | 3 :: rest => (parseStr rest).map fun p => (Val.vstr p.1, p.2)
  | _ => none

/-- Read back one entry. -/
def parseEntry (bs : List Nat) : Option ((String × Val) × List Nat) := do
  let (k, rest) ← parseStr bs
  let (v, rest') ← parseVal rest
  pure ((k, v), rest')

/-- Read back `n` entries. -/
def parseEntries : Nat → List Nat → Option (List (String × Val) × List Nat)
  | 0, rest => some ([], rest)
  | n + 1, bs => do
    let (kv, rest) ← parseEntry bs
    let (kvs, rest') ← parseEntries n rest
    pure (kv :: kvs, rest')

/-- Parse a whole mapping; trailing bytes are a parse error. -/
def parseMap (bs : List Nat) : Option (List (String × Val)) := do
  let (n, rest) ← parseUnary bs
  let (m, rest') ← parseEntries n rest
  if rest' = [] then pure m else none

/-- The padded-base64 alphabet, in sextet order. -/
def b64Alphabet : List Char :=
  ['A','B','C','D','E','F','G','H','I','J','K','L','M','N','O','P',
   'Q','R','S','T','U','V','W','X','Y','Z',
   'a','b','c','d','e','f','g','h','i','j','k','l','m','n','o','p',
   'q','r','s','t','u','v','w','x','y','z',
   '0','1','2','3','4','5','6','7','8','9','+','/']

/-- Alphabet character of a sextet. -/
def sextetChar (n : Nat) : Char :=
  b64Alphabet.getD n 'A'

/-- Sextet of an alphabet character; `none` off the alphabet. -/
def charSextetAux : List Char → Nat → Char → Option Nat
  | [], _, _ => none
  | a :: rest, i, c => if a = c then some i else charSextetAux rest (i + 1) c

/-- Sextet of an alphabet character; `none` off the alphabet. -/
def charSextet (c : Char) : Option Nat :=
  charSextetAux b64Alphabet 0 c

/-- Padded base64 encoding of a byte sequence: three bytes become four
alphabet characters; a final one- or two-byte remainder is padded with
`=`. -/
def b64encodeBytes : List Nat → List Char
  | [] => []
  | [a] => [sextetChar (a / 4), sextetChar (a % 4 * 16), '=', '=']
  | [a, b] => [sextetChar (a / 4), sextetChar (a % 4 * 16 + b / 16),
               sextetChar (b % 16 * 4), '=']
  | a :: b :: c :: rest =>
    sextetChar (a / 4) :: sextetChar (a % 4 * 16 + b / 16) ::
    sextetChar (b % 16 * 4 + c / 64) :: sextetChar (c % 64) ::
    b64encodeBytes rest

/-- Padded base64 decoding: fails off-alphabet characters, lengths not
a multiple of four, and padding anywhere but the final group. -/
def b64decodeChars : List Char → Option (List Nat)
  | [] => some []
  | c1 :: c2 :: c3 :: c4 :: rest =>
    match charSextet c1, charSextet c2 with
    | some s1, some s2 =>
      if c3 = '=' then
        if c4 = '=' ∧ rest = [] then some [s1 * 4 + s2 / 16] else none
      else
        match charSextet c3 with
        | some s3 =>
          if c4 = '=' then
            if rest = [] then
              some [s1 * 4 + s2 / 16, s2 % 16 * 16 + s3 / 4]
            else none
          else
            match charSextet c4 with
            | some s4 =>
              (b64decodeChars rest).map fun bs =>
                (s1 * 4 + s2 / 16) :: (s2 % 16 * 16 + s3 / 4) ::
                (s3 % 4 * 64 + s4) :: bs
            | none => none
        | none => none
    | _, _ => none
  | _ => none

/-- `Backup.encode_record`: build a fresh dict from the caller's extra
kwargs, `update` it with the record's field snapshot (record fields are
applied after the extras, so they win on key collision), serialize, and
base64-encode. The second component is the record after the call: the
method only reads `self`, so it is the record itself. -/
def encode_record (b : Backup) (kwargs : List (String × Val)) :
    String × Backup :=
  (String.mk (b64encodeBytes (serializeMap (dictUpdate kwargs (snapshot b)))),
   b)

/-- `Backup.decode_record`: base64-decode then parse; a base64 failure
(`binascii.Error`) and a parse failure (`ValueError`) are both
normalized to `InvalidInput`, with distinct diagnostic reasons. -/
def decode_record (backup_url : String) :
    Except InvalidInput (List (String × Val)) :=
  match b64decodeChars backup_url.data with
  | none => Except.error { reason := "Can't decode backup record." }
  | some bytes =>
    match parseMap bytes with
    | none => Except.error { reason := "Can't parse backup record." }
    | some m => Except.ok m

/-! ### Example objects used to instantiate hypothetical theorems -/

/-- A record materialized from an all-NULL storage row: every declared
field set (integers to `0`, the rest to null), change-set empty. -/
def exampleLoadedBackup : Backup :=
  fromDbObject fun _ => none

/-- A freshly constructed record: nothing set, nothing dirty. -/
def exampleFreshBackup : Backup :=
  { vals := fun _ => none, changed := fun _ => false }

/-- A storage collaborator whose insert returns an all-NULL row. -/
def exampleDb : List (BField × Val) → DbRow :=
  fun _ _ => none

/-- A storage row with NULL `size` and `host` and stored integers
elsewhere. -/
def exampleRow : DbRow := fun f =>
  match f with
  | BField.size => none
  | BField.host => none
  | _ => some (Val.vint 7)

/-- A loaded record with one mutation (`status := "available"`). -/
def exampleDirtyBackup : Backup :=
  objSet exampleLoadedBackup BField.status (Val.vstr "available")

/-- A loaded record whose `num_dependent_backups` was set to `-1`. -/
def negCountBackup : Backup :=
  objSet exampleLoadedBackup BField.num_dependent_backups (Val.vint (-1))

/-- A loaded record with `id="a1"`, `parent_id=""` and
`num_dependent_backups=0` (the spec's P8 scenario). -/
def scenarioBackup : Backup :=
  objSet (objSet exampleLoadedBackup BField.id (Val.vstr "a1"))
    BField.parent_id (Val.vstr "")

/-- The last binding of key `k` in an association list (the binding that
wins under Python's `update` semantics). -/
def lastBinding : List (String × Val) → String → Option Val
  | [], _ => none
  | (k', v) :: rest, k =>
    match lastBinding rest k with
    | some w => some w
    | none => if k' = k then some v else none

/-- The record's own value for the declared field named `k`, when such a
field exists and is set. -/
def declaredFieldValue (b : Backup) (k : String) : Option Val :=
  (allFields.find? fun f => fieldName f == k).bind fun f => b.vals f

/-! ### Theorems -/

/-- C1: evaluation of `obj_make_compatible` at the spec's downgrade
scenario. The code converts the target version `"1.0"` to a tuple and
then discards it, so the wire map still contains
`num_dependent_backups` — the field introduced at 1.1 is NOT removed,
contrary to the documented downgrade behavior. -/
theorem objMakeCompatible_keeps_num_dependent_backups :
    dictLookup
      (objMakeCompatible [("num_dependent_backups", Val.vint 0)] "1.0")
      "num_dependent_backups" = some (Val.vint 0) := by
  decide

/-- C5: `create` raises `ObjectActionError("create", "already created")`
exactly when `id` is already set; on a record whose `id` is unset it
succeeds with the object rebuilt from the collaborator's returned row
(the embedding is pure, so a failed call returns only the error and the
record value is untouched). -/
theorem create_already_created (db : List (BField × Val) → DbRow)
    (b : Backup) :
    (objAttrIsSet b BField.id = true →
      create db b =
        Except.error { action := "create", reason := "already created" }) ∧
    (objAttrIsSet b BField.id = false →
      create db b = Except.ok (fromDbObject (db (getChanges b)))) := by
  constructor <;> intro h <;> simp [create, h]

/-- C5 witness: the double-create error at a loaded record (whose `id`
is set) and the success at a fresh record. -/
theorem create_already_created_witness :
    create exampleDb exampleLoadedBackup =
      Except.error { action := "create", reason := "already created" } ∧
    create exampleDb exampleFreshBackup =
      Except.ok (fromDbObject (exampleDb (getChanges exampleFreshBackup))) :=
  ⟨(create_already_created exampleDb exampleLoadedBackup).1 rfl,
   (create_already_created exampleDb exampleFreshBackup).2 rfl⟩

/-- C6: `save` issues the collaborator's update keyed by `id` with
exactly the current change-set when it is non-empty, issues no call when
it is empty (no error either way), and in both cases the record's
change-set is empty afterwards with field values untouched. -/
theorem save_delta_and_reset (b : Backup) :
    (getChanges b ≠ [] →
      (save b).1 = some (b.vals BField.id, getChanges b)) ∧
    (getChanges b = [] → (save b).1 = none) ∧
    getChanges (save b).2 = [] ∧
    (∀ f, ((save b).2).vals f = b.vals f) := by
  refine ⟨fun h => ?_, fun h => ?_, rfl, fun f => rfl⟩ <;> simp [save, h]

/-- C6 witness: a dirty record issues exactly its delta, a clean record
issues nothing. -/
theorem save_delta_and_reset_witness :
    (save exampleDirtyBackup).1 =
      some (exampleDirtyBackup.vals BField.id, getChanges exampleDirtyBackup) ∧
    (save exampleLoadedBackup).1 = none :=
  ⟨(save_delta_and_reset exampleDirtyBackup).1 (by decide),
   (save_delta_and_reset exampleLoadedBackup).2.1 rfl⟩

/-- C7: `_from_db_object` loads a missing/NULL integer field as `0`,
loads any present value as-is, and loads a missing/NULL non-integer
field as null. -/
theorem from_db_object_defaults (row : DbRow) (f : BField) :
    (isIntegerField f = true → row f = none →
      (fromDbObject row).vals f = some (Val.vint 0)) ∧
    (∀ v, row f = some v → (fromDbObject row).vals f = some v) ∧
    (isIntegerField f = false → row f = none →
      (fromDbObject row).vals f = some Val.vnull) := by
  refine ⟨fun hi hr => ?_, fun v hr => ?_, fun hi hr => ?_⟩
  · simp [fromDbObject, loadVal, hr, hi]
  · simp [fromDbObject, loadVal, hr]
  · simp [fromDbObject, loadVal, hr, hi]

/-- C7 witness: on a row with NULL `size` and `host` and `7` elsewhere,
loading yields `size = 0`, `object_count = 7` and `host = null`. -/
theorem from_db_object_defaults_witness :
    (fromDbObject exampleRow).vals BField.size = some (Val.vint 0) ∧
    (fromDbObject exampleRow).vals BField.object_count = some (Val.vint 7) ∧
    (fromDbObject exampleRow).vals BField.host = some Val.vnull :=
  ⟨(from_db_object_defaults exampleRow BField.size).1 rfl rfl,
   (from_db_object_defaults exampleRow BField.object_count).2.1 _ rfl,
   (from_db_object_defaults exampleRow BField.host).2.2 rfl rfl⟩

/-- C8 counterexample: at a record whose `num_dependent_backups` is
`-1`, the code computes `has_dependent_backups = bool(-1) = true`, but
the claimed `num_dependent_backups > 0` is false — the claim fails as
stated over all field combinations. -/
theorem has_dependent_backups_neg_count :
    hasDependentBackups negCountBackup ≠ some (decide ((-1 : Int) > 0)) := by
  decide

/-- C8 (amended): `is_incremental` is true iff `parent_id` is a
non-empty string (null counts as empty), and `has_dependent_backups`
equals `num_dependent_backups ≠ 0`, which coincides with
`num_dependent_backups > 0` whenever the count is non-negative. -/
theorem derived_fields_consistent (b : Backup) :
    (∀ s, b.vals BField.parent_id = some (Val.vstr s) →
      isIncremental b = some (decide (s ≠ ""))) ∧
    (b.vals BField.parent_id = some Val.vnull →
      isIncremental b = some false) ∧
    (∀ n : Int, b.vals BField.num_dependent_backups = some (Val.vint n) →
      hasDependentBackups b = some (decide (n ≠ 0))) ∧
    (∀ n : Int, 0 ≤ n →
      b.vals BField.num_dependent_backups = some (Val.vint n) →
      hasDependentBackups b = some (decide (n > 0))) := by
  refine ⟨fun s hs => ?_, fun hn => ?_, fun n hn => ?_, fun n h0 hn => ?_⟩
  · simp [isIncremental, hs, pyTruthy]
  · simp [isIncremental, hn, pyTruthy]
  · simp [hasDependentBackups, hn, pyTruthy]
  · have hpt : pyTruthy (Val.vint n) = decide (n > 0) := by
      have h : (n ≠ 0) ↔ (n > 0) := by omega
      simp [pyTruthy, h]
    simp [hasDependentBackups, hn, hpt]

/-- C8 witness: the spec scenario — `parent_id = ""` and
`num_dependent_backups = 0` give `is_incremental = false` and
`has_dependent_backups = false`. -/
theorem derived_fields_consistent_witness :
    isIncremental scenarioBackup = some (decide ("" ≠ "")) ∧
    hasDependentBackups scenarioBackup = some (decide ((0 : Int) > 0)) :=
  ⟨(derived_fields_consistent scenarioBackup).1 "" rfl,
   (derived_fields_consistent scenarioBackup).2.2.2 0 (by decide) rfl⟩

/-- C9: the change-set is empty right after loading from a row, after a
successful `create`, and after `save`; and an assignment adds exactly
the assigned field to the dirty set. -/
theorem change_set_lifecycle (row : DbRow)
    (db : List (BField × Val) → DbRow) (b b' : Backup) (f : BField)
    (v : Val) :
    getChanges (fromDbObject row) = [] ∧
    (create db b = Except.ok b' → getChanges b' = []) ∧
    getChanges (save b).2 = [] ∧
    (∀ g, (objSet b f v).changed g = true ↔ (g = f ∨ b.changed g = true)) := by
  refine ⟨rfl, fun h => ?_, rfl, fun g => ?_⟩
  · unfold create at h
    by_cases hid : objAttrIsSet b BField.id
    · simp [hid] at h
    · simp [hid] at h
      rw [← h]
      rfl
  · by_cases hg : g = f <;> simp [objSet, hg]

/-- C9 witness: instantiated at a fresh record successfully created
through the example collaborator and one mutated field. -/
theorem change_set_lifecycle_witness :
    getChanges (fromDbObject (exampleDb (getChanges exampleFreshBackup))) =
      [] :=
  (change_set_lifecycle (fun _ => none) exampleDb exampleFreshBackup
    (fromDbObject (exampleDb (getChanges exampleFreshBackup)))
    BField.status (Val.vstr "x")).2.1 rfl

/-- C10: `encode_record` does not mutate the record: every field value,
every dirty flag, and hence the change-set are the same after the call
(the method merges the snapshot into a copy of the kwargs dict and only
reads `self`). -/
theorem encode_record_frame (b : Backup) (kwargs : List (String × Val)) :
    (∀ f, ((encode_record b kwargs).2).vals f = b.vals f) ∧
    (∀ f, ((encode_record b kwargs).2).changed f = b.changed f) ∧
    getChanges (encode_record b kwargs).2 = getChanges b :=
  ⟨fun _ => rfl, fun _ => rfl, rfl⟩

/-! ### Structured-text round-trip -/

theorem parseUnary_unaryLen (n : Nat) (rest : List Nat) :
    parseUnary (unaryLen n ++ rest) = some (n, rest) := by
  induction n with
  | zero => rfl
  | succ n ih =>
    have h : unaryLen (n + 1) ++ rest = 1 :: (unaryLen n ++ rest) := by
      simp [unaryLen, List.replicate_succ]
    rw [h]
    simp [parseUnary, ih]

theorem char3_recompose (x : Nat) :
    x / 65536 * 65536 + x / 256 % 256 * 256 + x % 256 = x := by
  omega

theorem parseChars_char3 (cs : List Char) (rest : List Nat) :
    parseChars cs.length (List.flatten (cs.map char3) ++ rest)
      = some (cs, rest) := by
  induction cs with
  | nil => rfl
  | cons c cs ih =>
    have h : List.flatten ((c :: cs).map char3) ++ rest
        = c.toNat / 65536 :: c.toNat / 256 % 256 :: c.toNat % 256 ::
          (List.flatten (cs.map char3) ++ rest) := by
      simp [char3]
    rw [List.length_cons, h]
    simp [parseChars, ih, char3_recompose, Char.ofNat_toNat]

theorem parseStr_serializeStr (s : String) (rest : List Nat) :
    parseStr (serializeStr s ++ rest) = some (s, rest) := by
  have h : parseChars s.length (List.flatten (s.data.map char3) ++ rest)
      = some (s.data, rest) := parseChars_char3 s.data rest
  unfold parseStr serializeStr
  rw [List.append_assoc, parseUnary_unaryLen]
  simp [h]

theorem parseVal_serializeVal (v : Val) (rest : List Nat) :
    parseVal (serializeVal v ++ rest) = some (v, rest) := by
  cases v with
  | vnull => rfl
  | vbool b => cases b <;> rfl
  | vint n =>
    by_cases hn : n < 0
    · have h1 : serializeVal (Val.vint n) ++ rest
          = 2 :: 1 :: (unaryLen n.natAbs ++ rest) := by
        simp [serializeVal, hn]
      have h2 : -((n.natAbs : Nat) : Int) = n := by omega
      rw [h1]
      show (parseUnary (unaryLen n.natAbs ++ rest)).map
          (fun p => (Val.vint (-(p.1 : Int)), p.2)) = some (Val.vint n, rest)
      rw [parseUnary_unaryLen]
      show some (Val.vint (-((n.natAbs : Nat) : Int)), rest)
          = some (Val.vint n, rest)
      rw [h2]
    · have h1 : serializeVal (Val.vint n) ++ rest
          = 2 :: 0 :: (unaryLen n.natAbs ++ rest) := by
        simp [serializeVal, hn]
      have h2 : (((n.natAbs : Nat)) : Int) = n := by omega
      rw [h1]
      show (parseUnary (unaryLen n.natAbs ++ rest)).map
          (fun p => (Val.vint (p.1 : Int), p.2)) = some (Val.vint n, rest)
      rw [parseUnary_unaryLen]
      show some (Val.vint ((n.natAbs : Nat) : Int), rest)
          = some (Val.vint n, rest)
      rw [h2]
  | vstr s =>
    have h1 : serializeVal (Val.vstr s) ++ rest
        = 3 :: (serializeStr s ++ rest) := by
      simp [serializeVal]
    rw [h1]
    show (parseStr (serializeStr s ++ rest)).map
        (fun p => (Val.vstr p.1, p.2)) = some (Val.vstr s, rest)
    rw [parseStr_serializeStr]
    rfl

theorem parseEntry_serializeEntry (kv : String × Val) (rest : List Nat) :
    parseEntry (serializeEntry kv ++ rest) = some (kv, rest) := by
  unfold parseEntry serializeEntry
  rw [List.append_assoc, parseStr_serializeStr]
  simp [parseVal_serializeVal]

theorem parseEntries_serializeEntries (m : List (String × Val))
    (rest : List Nat) :
    parseEntries m.length (List.flatten (m.map serializeEntry) ++ rest)
      = some (m, rest) := by
  induction m with
  | nil => rfl
  | cons kv m ih =>
    have h : List.flatten ((kv :: m).map serializeEntry) ++ rest
        = serializeEntry kv ++ (List.flatten (m.map serializeEntry) ++ rest) := by
      simp
    rw [List.length_cons, h]
    simp [parseEntries, parseEntry_serializeEntry, ih]

theorem parseMap_serializeMap (m : List (String × Val)) :
    parseMap (serializeMap m) = some m := by
  have h := parseEntries_serializeEntries m []
  rw [List.append_nil] at h
  unfold parseMap serializeMap
  rw [parseUnary_unaryLen]
  simp [h]

/-! ### Serialized bytes are bytes -/

theorem char_toNat_lt (c : Char) : c.toNat < 1114112 := by
  rcases c.valid with h | h
  · exact Nat.lt_trans h (by norm_num)
  · exact h.2

theorem mem_unaryLen_lt {x n : Nat} (h : x ∈ unaryLen n) : x < 256 := by
  simp only [unaryLen, List.mem_append, List.mem_replicate,
    List.mem_singleton] at h
  omega

theorem mem_char3_lt {x : Nat} {c : Char} (h : x ∈ char3 c) : x < 256 := by
  have hc := char_toNat_lt c
  simp only [char3, List.mem_cons, List.not_mem_nil, or_false] at h
  rcases h with h | h | h <;> subst h <;> omega

theorem mem_serializeStr_lt {x : Nat} {s : String}
    (h : x ∈ serializeStr s) : x < 256 := by
  simp only [serializeStr, List.mem_append, List.mem_flatten,
    List.mem_map] at h
  rcases h with h | ⟨l, ⟨c, _, rfl⟩, hx⟩
  · exact mem_unaryLen_lt h
  · exact mem_char3_lt hx

theorem mem_serializeVal_lt {x : Nat} {v : Val}
    (h : x ∈ serializeVal v) : x < 256 := by
  cases v with
  | vnull =>
    simp only [serializeVal, List.mem_singleton] at h
    omega
  | vbool b =>
    simp only [serializeVal, List.mem_cons, List.not_mem_nil, or_false] at h
    rcases h with h | h
    · omega
    · subst h
      split <;> omega
  | vint n =>
    simp only [serializeVal, List.mem_cons] at h
    rcases h with h | h | h
    · omega
    · subst h
      split <;> omega
    · exact mem_unaryLen_lt h
  | vstr s =>
    simp only [serializeVal, List.mem_cons] at h
    rcases h with h | h
    · omega
    · exact mem_serializeStr_lt h

theorem mem_serializeEntry_lt {x : Nat} {kv : String × Val}
    (h : x ∈ serializeEntry kv) : x < 256 := by
  simp only [serializeEntry, List.mem_append] at h
  rcases h with h | h
  · exact mem_serializeStr_lt h
  · exact mem_serializeVal_lt h

theorem mem_serializeMap_lt (m : List (String × Val)) :
    ∀ x ∈ serializeMap m, x < 256 := by
  intro x h
  simp only [serializeMap, List.mem_append, List.mem_flatten,
    List.mem_map] at h
  rcases h with h | ⟨l, ⟨kv, _, rfl⟩, hx⟩
  · exact mem_unaryLen_lt h
  · exact mem_serializeEntry_lt hx

/-! ### Base64 round-trip -/

theorem charSextet_sextetChar :
    ∀ s : Nat, s < 64 → charSextet (sextetChar s) = some s := by
  decide

theorem sextetChar_ne_pad : ∀ s : Nat, s < 64 → sextetChar s ≠ '=' := by
  decide

theorem b64_roundtrip (bs : List Nat) :
    (∀ x ∈ bs, x < 256) → b64decodeChars (b64encodeBytes bs) = some bs := by
  induction bs using b64encodeBytes.induct with
  | case1 =>
    intro _
    rfl
  | case2 a =>
    intro hb
    have ha : a < 256 := hb a (by simp)
    have e1 := charSextet_sextetChar (a / 4) (by omega)
    have e2 := charSextet_sextetChar (a % 4 * 16) (by omega)
    simp [b64encodeBytes, b64decodeChars, e1, e2]
    omega
  | case3 a b =>
    intro hb
    have ha : a < 256 := hb a (by simp)
    have hb2 : b < 256 := hb b (by simp)
    have e1 := charSextet_sextetChar (a / 4) (by omega)
    have e2 := charSextet_sextetChar (a % 4 * 16 + b / 16) (by omega)
    have e3 := charSextet_sextetChar (b % 16 * 4) (by omega)
    have hne3 := sextetChar_ne_pad (b % 16 * 4) (by omega)
    simp [b64encodeBytes, b64decodeChars, e1, e2, e3, hne3]
    constructor <;> omega
  | case4 a b c rest ih =>
    intro hb
    have ha : a < 256 := hb a (by simp)
    have hb2 : b < 256 := hb b (by simp)
    have hc : c < 256 := hb c (by simp)
    have hrest : ∀ x ∈ rest, x < 256 := fun x hx => hb x (by simp [hx])
    have e1 := charSextet_sextetChar (a / 4) (by omega)
    have e2 := charSextet_sextetChar (a % 4 * 16 + b / 16) (by omega)
    have e3 := charSextet_sextetChar (b % 16 * 4 + c / 64) (by omega)
    have e4 := charSextet_sextetChar (c % 64) (by omega)
    have hne3 := sextetChar_ne_pad (b % 16 * 4 + c / 64) (by omega)
    have hne4 := sextetChar_ne_pad (c % 64) (by omega)
    simp [b64encodeBytes, b64decodeChars, e1, e2, e3, e4, hne3, hne4,
      ih hrest]
    refine ⟨by omega, by omega, by omega⟩

/-! ### Dict-merge semantics -/

theorem dictLookup_dictSet (d : List (String × Val)) (k k' : String)
    (v : Val) :
    dictLookup (dictSet d k v) k' =
      if k = k' then some v else dictLookup d k' := by
  induction d with
  | nil =>
    by_cases h : k = k' <;> simp [dictSet, dictLookup, h]
  | cons kv rest ih =>
    obtain ⟨k0, v0⟩ := kv
    by_cases h0 : k0 = k
    · subst h0
      by_cases h1 : k0 = k' <;> simp [dictSet, dictLookup, h1]
    · by_cases h2 : k0 = k'
      · subst h2
        have h1 : ¬k = k0 := fun he => h0 he.symm
        simp [dictSet, dictLookup, h0, h1]
      · simp [dictSet, dictLookup, h0, h2, ih]

theorem dictLookup_dictUpdate (us : List (String × Val)) :
    ∀ (d : List (String × Val)) (k : String),
      dictLookup (dictUpdate d us) k =
        match lastBinding us k with
        | some v => some v
        | none => dictLookup d k := by
  induction us with
  | nil =>
    intro d k
    rfl
  | cons kv us ih =>
    intro d k
    obtain ⟨k0, v0⟩ := kv
    have h1 : dictUpdate d ((k0, v0) :: us) =
        dictUpdate (dictSet d k0 v0) us := rfl
    rw [h1, ih]
    cases h : lastBinding us k with
    | some w => simp [lastBinding, h]
    | none =>
      simp only [lastBinding, h]
      rw [dictLookup_dictSet]
      by_cases hk : k0 = k <;> simp [hk]

theorem dictSet_append (d : List (String × Val)) (k : String) (v : Val)
    (h : dictLookup d k = none) : dictSet d k v = d ++ [(k, v)] := by
  induction d with
  | nil => rfl
  | cons kv rest ih =>
    obtain ⟨k0, v0⟩ := kv
    simp only [dictLookup] at h
    by_cases hk : k0 = k
    · simp [hk] at h
    · simp only [hk, if_false] at h
      simp [dictSet, hk, ih h]

theorem dictLookup_append_singleton {d : List (String × Val)}
    {k0 k : String} {v0 : Val} (h1 : dictLookup d k = none)
    (h2 : k0 ≠ k) : dictLookup (d ++ [(k0, v0)]) k = none := by
  induction d with
  | nil => simp [dictLookup, h2]
  | cons kv rest ih =>
    obtain ⟨k1, v1⟩ := kv
    simp only [dictLookup] at h1
    by_cases hk : k1 = k
    · simp [hk] at h1
    · simp only [hk, if_false] at h1
      simp [dictLookup, hk, ih h1]

theorem dictUpdate_eq_append (us : List (String × Val)) :
    ∀ acc : List (String × Val),
      (∀ k ∈ us.map Prod.fst, dictLookup acc k = none) →
      (us.map Prod.fst).Nodup → dictUpdate acc us = acc ++ us := by
  induction us with
  | nil =>
    intro acc _ _
    simp [dictUpdate]
  | cons kv us ih =>
    intro acc hnone hnd
    obtain ⟨k0, v0⟩ := kv
    simp only [List.map_cons, List.nodup_cons] at hnd
    have h0 : dictLookup acc k0 = none := hnone k0 (by simp)
    have h1 : dictUpdate acc ((k0, v0) :: us) =
        dictUpdate (dictSet acc k0 v0) us := rfl
    rw [h1, dictSet_append acc k0 v0 h0]
    rw [ih (acc ++ [(k0, v0)]) ?_ hnd.2]
    · simp
    · intro k hk
      have hne : k0 ≠ k := fun he => hnd.1 (he ▸ hk)
      exact dictLookup_append_singleton (hnone k (by simp [hk])) hne

theorem dictUpdate_nil (us : List (String × Val))
    (h : (us.map Prod.fst).Nodup) : dictUpdate [] us = us := by
  have := dictUpdate_eq_append us [] (fun _ _ => rfl) h
  simpa using this

/-! ### Snapshot keys -/

theorem allFields_names_nodup : (allFields.map fieldName).Nodup := by
  decide

theorem snapList_keys_sublist (b : Backup) (fs : List BField) :
    (((fs.filterMap fun f => (b.vals f).map fun v => (fieldName f, v)).map
      Prod.fst)).Sublist (fs.map fieldName) := by
  induction fs with
  | nil => simp
  | cons f fs ih =>
    cases h : b.vals f with
    | none =>
      simp only [List.filterMap_cons, h, Option.map_none, List.map_cons]
      exact ih.cons (fieldName f)
    | some v =>
      simp only [List.filterMap_cons, h, Option.map_some, List.map_cons]
      exact ih.cons₂ (fieldName f)

theorem snapshot_keys_nodup (b : Backup) :
    ((snapshot b).map Prod.fst).Nodup :=
  List.Nodup.sublist (snapList_keys_sublist b allFields)
    allFields_names_nodup

theorem lastBinding_eq_none {us : List (String × Val)} {k : String}
    (h : ∀ kv ∈ us, kv.1 ≠ k) : lastBinding us k = none := by
  induction us with
  | nil => rfl
  | cons kv us ih =>
    obtain ⟨k0, v0⟩ := kv
    have h0 : k0 ≠ k := h (k0, v0) (by simp)
    have hrest := ih fun kv hkv => h kv (by simp [hkv])
    simp [lastBinding, hrest, h0]

theorem lastBinding_snapList (b : Backup) (k : String) :
    ∀ fs : List BField, (fs.map fieldName).Nodup →
      lastBinding
        (fs.filterMap fun f => (b.vals f).map fun v => (fieldName f, v)) k
        = (fs.find? fun f => fieldName f == k).bind fun f => b.vals f := by
  intro fs
  induction fs with
  | nil =>
    intro _
    rfl
  | cons f fs ih =>
    intro hnd
    simp only [List.map_cons, List.nodup_cons] at hnd
    by_cases hk : fieldName f = k
    · have hbeq : (fieldName f == k) = true := beq_iff_eq.mpr hk
      have hfind : ((f :: fs).find? fun f => fieldName f == k) = some f := by
        simp [List.find?, hbeq]
      have hnone : lastBinding
          (fs.filterMap fun f' => (b.vals f').map fun v => (fieldName f', v))
          k = none := by
        apply lastBinding_eq_none
        intro kv hkv
        simp only [List.mem_filterMap] at hkv
        obtain ⟨f', hf', hmap⟩ := hkv
        obtain ⟨w, hw, hkv1⟩ := Option.map_eq_some'.mp hmap
        rw [← hkv1]
        intro hcontra
        apply hnd.1
        have hfk : fieldName f' = k := hcontra
        have hmem : fieldName f' ∈ List.map fieldName fs :=
          List.mem_map_of_mem fieldName hf'
        rwa [hfk, ← hk] at hmem
      cases hv : b.vals f with
      | none =>
        simp [List.filterMap_cons, hv, hfind, hnone]
      | some v =>
        simp [List.filterMap_cons, hv, hfind, lastBinding, hnone, hk]
    · have hbeq : (fieldName f == k) = false := beq_eq_false_iff_ne.mpr hk
      have hfind : ((f :: fs).find? fun f => fieldName f == k)
          = fs.find? fun f => fieldName f == k := by
        simp [List.find?, hbeq]
      cases hv : b.vals f with
      | none =>
        simp only [List.filterMap_cons, hv, Option.map_none]
        rw [hfind]
        exact ih hnd.2
      | some v =>
        simp only [List.filterMap_cons, hv, Option.map_some]
        rw [hfind, ← ih hnd.2]
        cases h' : lastBinding
            (fs.filterMap fun f' =>
              (b.vals f').map fun v => (fieldName f', v)) k with
        | some w => simp [lastBinding, h']
        | none => simp [lastBinding, h', hk]

theorem lastBinding_snapshot_eq (b : Backup) (k : String) :
    lastBinding (snapshot b) k = declaredFieldValue b k :=
  lastBinding_snapList b k allFields allFields_names_nodup

/-- C2: encoding a record with no extra kwargs and decoding the result
yields exactly the record's declared-field snapshot (the mapping of its
set declared field names to their current values). -/
theorem decode_encode_roundtrip (b : Backup) :
    decode_record (encode_record b []).1 = Except.ok (snapshot b) := by
  have hnil : dictUpdate [] (snapshot b) = snapshot b :=
    dictUpdate_nil (snapshot b) (snapshot_keys_nodup b)
  have hb64 := b64_roundtrip (serializeMap (snapshot b))
    (mem_serializeMap_lt _)
  simp [decode_record, encode_record, hnil, hb64, parseMap_serializeMap]

/-- C3: decoding `encode(r, {k: x})` yields a mapping whose entry at `k`
is the record's own value when the record declares (and has set) a field
named `k`, and `x` otherwise — the record's fields are applied after the
extras, so they win on collision. -/
theorem encode_extras_precedence (b : Backup) (k : String) (x : Val) :
    decode_record (encode_record b [(k, x)]).1
        = Except.ok (dictUpdate [(k, x)] (snapshot b)) ∧
    dictLookup (dictUpdate [(k, x)] (snapshot b)) k
        = some ((declaredFieldValue b k).getD x) := by
  constructor
  · have hb64 := b64_roundtrip (serializeMap (dictUpdate [(k, x)] (snapshot b)))
      (mem_serializeMap_lt _)
    simp [decode_record, encode_record, hb64, parseMap_serializeMap]
  · rw [dictLookup_dictUpdate, lastBinding_snapshot_eq]
    cases h : declaredFieldValue b k with
    | none => simp [dictLookup]
    | some v => simp

/-- C4: `decode_record` fails with the single `InvalidInput` error kind
in both failure modes, with distinct diagnostics — the base64-failure
message when the token is not valid padded base64, and the parse-failure
message when the decoded bytes are not well-formed structured text; in
particular `decode_record "not-base64!!"` gives the decode-failure
message. -/
theorem decode_record_invalid_input (s : String) :
    (b64decodeChars s.data = none →
      decode_record s =
        Except.error { reason := "Can't decode backup record." }) ∧
    (∀ bs, b64decodeChars s.data = some bs → parseMap bs = none →
      decode_record s =
        Except.error { reason := "Can't parse backup record." }) ∧
    decode_record "not-base64!!" =
      Except.error { reason := "Can't decode backup record." } := by
  refine ⟨fun h => ?_, fun bs h hp => ?_, ?_⟩
  · simp [decode_record, h]
  · simp [decode_record, h, hp]
  · rfl

/-- C4 witness: the malformed-base64 token and a valid-base64 token
whose bytes are not a well-formed serialized mapping. -/
theorem decode_record_invalid_input_witness :
    decode_record "not-base64!!" =
      Except.error { reason := "Can't decode backup record." } ∧
    decode_record "AAAA" =
      Except.error { reason := "Can't parse backup record." } :=
  ⟨(decode_record_invalid_input "not-base64!!").1 rfl,
   (decode_record_invalid_input "AAAA").2.1 [0, 0, 0] rfl rfl⟩

end CinderBackup
